import Mathlib

/-!
Verification of the betting negotiation engine of the repository
(ballsdex/packages/betting: betting_user.py, menu.py, cog.py).

The model is a shallow embedding of the Python source:

* `BettingUser` mirrors `betting_user.BettingUser` (proposal list and the
  locked / accepted / cancelled flags).
* `SysState` mirrors one `menu.BetMenu` together with its current discord
  view (`BetView` while building, `ConfirmView` once both parties locked),
  the background refresh task, and the suspended coroutine continuations
  created by `ConfirmChoiceView` sub-dialogs (favorite confirmations,
  reset / cancel / deny confirmations).  `resolveCount` is a ghost counter
  that is incremented exactly when the winner-selection and transfer block
  of `BetMenu.confirm` runs; it is never read by any handler.
* `Event` and `handleEvent` give a small-step interleaving semantics:
  each event is one atomic segment of a Python handler, split at its
  `await` suspension points where state can be observed in between.
  Segments of one handler that contain no `await` between reading and
  writing the shared session state are one event.
* `scanBets` and `beginBet` mirror `cog.Bet.get_bet` and `cog.Bet.begin`
  acting on the per-channel session list of the registry.
* `transferLoop` / `betResolve` mirror the resolution block of
  `BetMenu.confirm` (random winner, item-by-item ownership transfer with
  no rollback on failure), acting on a persisted ownership map.
-/

namespace Betting

/-- Mirror of `BettingUser.__init__` (betting_user.py): identity of the
discord user and player row, the proposal (list of ball instance ids),
and the three flags, all initially false. -/
structure BettingUser where
  userId : Nat
  playerId : Nat
  proposal : List Nat
  locked : Bool
  accepted : Bool
  cancelled : Bool
deriving DecidableEq, Repr

/-- Which view class is installed as `BetMenu.current_view`:
`BetView` during proposal building, `ConfirmView` once both locked. -/
inductive ViewKind
  | betView
  | confirmView
deriving DecidableEq, Repr

/-- One `BetMenu` with its view, refresh task, deadline clock and the
suspended sub-dialog continuations of in-flight handlers. -/
structure SysState where
  bettor1 : BettingUser
  bettor2 : BettingUser
  /-- class of `current_view` -/
  viewKind : ViewKind
  /-- `current_view.is_finished()`, set by `.stop()` -/
  viewFinished : Bool
  /-- the `update_message_loop` task is alive -/
  taskRunning : Bool
  /-- `cooldown_start_time` has been set (confirmation deadline clock) -/
  cooldownStarted : Bool
  /-- `embed.description` -/
  description : String
  /-- `/bet add` handlers suspended at the favorite confirmation dialog:
  (party, item) pairs awaiting `view.wait()` (cog.py lines 177-190) -/
  pendingAdds : List (Bool × Nat)
  /-- bulk-add `confirm_button` handlers suspended at the favorite dialog:
  (party, selected items) awaiting `view.wait()` (menu.py lines 487-499) -/
  pendingBulks : List (Bool × List Nat)
  /-- `BetView.clear` handlers suspended at the confirmation dialog -/
  pendingClears : List Bool
  /-- `BetView.cancel` handlers suspended at the confirmation dialog -/
  pendingCancels : List Bool
  /-- `ConfirmView.deny_button` handlers suspended at the dialog -/
  pendingDenies : List Bool
  /-- ghost: number of times the resolution block of `BetMenu.confirm`
  (winner selection + transfer loop) has been entered -/
  resolveCount : Nat
deriving DecidableEq, Repr

/-- `true` selects `bettor1`, `false` selects `bettor2`. -/
def bettorOf (s : SysState) (p : Bool) : BettingUser :=
  if p then s.bettor1 else s.bettor2

def setBettor (s : SysState) (p : Bool) (b : BettingUser) : SysState :=
  if p then { s with bettor1 := b } else { s with bettor2 := b }

/-- Mirror of `BetMenu._get_bettor` (menu.py lines 224-229): match the
interacting user id against the two bettors; the `RuntimeError` raised
for an unknown id becomes `none`. -/
def getBettor (s : SysState) (uid : Nat) : Option Bool :=
  if uid = s.bettor1.userId then some true
  else if uid = s.bettor2.userId then some false
  else none

/-- The removal condition of `cog.Bet.get_bet` (cog.py lines 72-79):
`bet.current_view.is_finished() or bettor1.cancelled or bettor2.cancelled`. -/
def terminalGB (s : SysState) : Bool :=
  s.viewFinished || s.bettor1.cancelled || s.bettor2.cancelled

/-- Mirror of `BetMenu.cancel` (menu.py lines 286-299): cancel the
refresh task, stop the current view and render the reason. -/
def cancelMenu (s : SysState) (reason : String) : SysState :=
  { s with taskRunning := false, viewFinished := true,
           description := "**" ++ reason ++ "**" }

/-- Mirror of `BetMenu.user_cancel` (menu.py lines 321-324). -/
def userCancelMenu (s : SysState) (p : Bool) : SysState :=
  cancelMenu (setBettor s p { bettorOf s p with cancelled := true })
    "The bet has been cancelled."

/-- Mirror of `BetMenu.lock` (menu.py lines 301-319): set the locked
flag; when both are locked, cancel the refresh task, auto-cancel if both
proposals are empty, otherwise stop the `BetView`, start the
confirmation deadline clock and install a fresh `ConfirmView`. -/
def lockMenu (s : SysState) (p : Bool) : SysState :=
  let s := setBettor s p { bettorOf s p with locked := true }
  if s.bettor1.locked && s.bettor2.locked then
    let s := { s with taskRunning := false }
    if s.bettor1.proposal.isEmpty && s.bettor2.proposal.isEmpty then
      cancelMenu s "Nothing has been proposed in the bet, it has been cancelled."
    else
      { s with viewFinished := false, viewKind := ViewKind.confirmView,
               cooldownStarted := true,
               description :=
                 "Both users locked their proposals! Now confirm to conclude this bet." }
  else s

/-- Mirror of `BetMenu.confirm` (menu.py lines 326-359): set the
accepted flag; when both are accepted, cancel the task and run the
resolution block (`coin` is the value of `random.choice([True, False])`
for `winner_is_bettor1`; `transferOk` is whether the transfer loop
completed without an exception, its effect on the ownership store being
modelled separately by `betResolve`), then stop the confirmation view.
Returns the boolean `result`. -/
def confirmMenu (s : SysState) (p : Bool) (coin : Bool) (transferOk : Bool) :
    SysState × Bool :=
  let s := setBettor s p { bettorOf s p with accepted := true }
  if s.bettor1.accepted && s.bettor2.accepted then
    let s := { s with taskRunning := false, resolveCount := s.resolveCount + 1 }
    let _ := coin
    if transferOk then
      ({ s with viewFinished := true, description := "won the bet" }, true)
    else
      ({ s with viewFinished := true, description := "Error concluding bet!" }, false)
  else (s, true)

/-- Outcome reported to the interacting user by one handler segment. -/
inductive Outcome
  | ok
  | notDelivered
  | notAllowed
  | noBet
  | proposalLocked
  | alreadyLocked
  | duplicateItem
  | itemNotFound
  | alreadyAccepted
  | emptySelection
  | dialogDeclined
  | resolvedOk
  | resolvedFailed
  | waiting
  | cannotCancelNow
  | noPending
deriving DecidableEq, Repr

/-- One atomic segment of a Python handler.  `Start` events are the
segment from the button press or slash command up to the first dialog
suspension; `Resume` events are the continuation after `view.wait()`
returns (`confirmed` is `view.value`), addressed by index into the
corresponding pending list. -/
inductive Event
  | lockBtn (uid : Nat)
  | clearStart (uid : Nat)
  | clearResume (i : Nat) (confirmed : Bool)
  | cancelStart (uid : Nat)
  | cancelResume (i : Nat) (confirmed : Bool)
  | acceptBtn (uid : Nat) (coin : Bool) (transferOk : Bool)
  | denyStart (uid : Nat)
  | denyResume (i : Nat) (confirmed : Bool)
  | addStart (uid : Nat) (item : Nat) (isFav : Bool)
  | addResume (i : Nat) (confirmed : Bool)
  | removeCmd (uid : Nat) (item : Nat)
  | bulkStart (uid : Nat) (items : List Nat) (anyFav : Bool)
  | bulkResume (i : Nat) (confirmed : Bool)
  | buildTimeout
  | confirmTimeout
  | refreshError
deriving DecidableEq, Repr

/-- Small-step semantics of the session: execute one atomic handler
segment.  Button events are delivered only while the corresponding view
is installed and not stopped; resume events fire whenever the suspended
coroutine is woken, regardless of the session state, exactly as in the
source. -/
def handleEvent (s : SysState) (e : Event) : SysState × Outcome :=
  match e with
  | Event.lockBtn uid =>
    -- BetView.lock (menu.py lines 49-69)
    if s.viewFinished || s.viewKind == ViewKind.confirmView then (s, Outcome.notDelivered)
    else match getBettor s uid with
      | none => (s, Outcome.notAllowed)
      | some p =>
        if (bettorOf s p).locked then (s, Outcome.alreadyLocked)
        else (lockMenu s p, Outcome.ok)
  | Event.clearStart uid =>
    -- BetView.clear up to the dialog (menu.py lines 71-91)
    if s.viewFinished || s.viewKind == ViewKind.confirmView then (s, Outcome.notDelivered)
    else match getBettor s uid with
      | none => (s, Outcome.notAllowed)
      | some p =>
        if (bettorOf s p).locked then (s, Outcome.proposalLocked)
        else ({ s with pendingClears := s.pendingClears ++ [p] }, Outcome.waiting)
  | Event.clearResume i confirmed =>
    -- BetView.clear after view.wait (menu.py lines 92-105): re-checks locked
    match s.pendingClears.get? i with
    | none => (s, Outcome.noPending)
    | some p =>
      let s := { s with pendingClears := s.pendingClears.eraseIdx i }
      if !confirmed then (s, Outcome.dialogDeclined)
      else if (bettorOf s p).locked then (s, Outcome.proposalLocked)
      else (setBettor s p { bettorOf s p with proposal := [] }, Outcome.ok)
  | Event.cancelStart uid =>
    -- BetView.cancel up to the dialog (menu.py lines 107-123)
    if s.viewFinished || s.viewKind == ViewKind.confirmView then (s, Outcome.notDelivered)
    else match getBettor s uid with
      | none => (s, Outcome.notAllowed)
      | some p => ({ s with pendingCancels := s.pendingCancels ++ [p] }, Outcome.waiting)
  | Event.cancelResume i confirmed =>
    -- BetView.cancel after view.wait (menu.py lines 124-128)
    match s.pendingCancels.get? i with
    | none => (s, Outcome.noPending)
    | some p =>
      let s := { s with pendingCancels := s.pendingCancels.eraseIdx i }
      if !confirmed then (s, Outcome.dialogDeclined)
      else (userCancelMenu s p, Outcome.ok)
  | Event.acceptBtn uid coin transferOk =>
    -- ConfirmView.accept_button (menu.py lines 152-174); the check of
    -- bettor.accepted, the flag set and the both-accepted branch entry in
    -- BetMenu.confirm contain no await in between, hence one segment
    if s.viewFinished || s.viewKind == ViewKind.betView then (s, Outcome.notDelivered)
    else match getBettor s uid with
      | none => (s, Outcome.notAllowed)
      | some p =>
        if (bettorOf s p).accepted then (s, Outcome.alreadyAccepted)
        else
          let r := confirmMenu s p coin transferOk
          if r.1.bettor1.accepted && r.1.bettor2.accepted then
            (r.1, if r.2 then Outcome.resolvedOk else Outcome.resolvedFailed)
          else (r.1, Outcome.waiting)
  | Event.denyStart uid =>
    -- ConfirmView.deny_button up to the dialog (menu.py lines 176-191)
    if s.viewFinished || s.viewKind == ViewKind.betView then (s, Outcome.notDelivered)
    else match getBettor s uid with
      | none => (s, Outcome.notAllowed)
      | some p => ({ s with pendingDenies := s.pendingDenies ++ [p] }, Outcome.waiting)
  | Event.denyResume i confirmed =>
    -- ConfirmView.deny_button after view.wait (menu.py lines 192-202)
    match s.pendingDenies.get? i with
    | none => (s, Outcome.noPending)
    | some p =>
      let s := { s with pendingDenies := s.pendingDenies.eraseIdx i }
      if !confirmed then (s, Outcome.dialogDeclined)
      else if s.bettor1.accepted && s.bettor2.accepted then (s, Outcome.cannotCancelNow)
      else (userCancelMenu s p, Outcome.ok)
  | Event.addStart uid item isFav =>
    -- cog.Bet.add up to the favorite dialog (cog.py lines 156-190):
    -- get_bet lookup, locked check, duplicate check, favorite dialog
    if terminalGB s then (s, Outcome.noBet)
    else match getBettor s uid with
      | none => (s, Outcome.noBet)
      | some p =>
        let b := bettorOf s p
        if b.locked then (s, Outcome.proposalLocked)
        else if b.proposal.contains item then (s, Outcome.duplicateItem)
        else if isFav then
          ({ s with pendingAdds := s.pendingAdds ++ [(p, item)] }, Outcome.waiting)
        else (setBettor s p { b with proposal := b.proposal ++ [item] }, Outcome.ok)
  | Event.addResume i confirmed =>
    -- cog.Bet.add after view.wait (cog.py lines 189-193): appends with
    -- no re-check of the locked flag
    match s.pendingAdds.get? i with
    | none => (s, Outcome.noPending)
    | some pi =>
      let s := { s with pendingAdds := s.pendingAdds.eraseIdx i }
      if !confirmed then (s, Outcome.dialogDeclined)
      else
        let b := bettorOf s pi.1
        (setBettor s pi.1 { b with proposal := b.proposal ++ [pi.2] }, Outcome.ok)
  | Event.removeCmd uid item =>
    -- cog.Bet.remove (cog.py lines 213-235)
    if terminalGB s then (s, Outcome.noBet)
    else match getBettor s uid with
      | none => (s, Outcome.noBet)
      | some p =>
        let b := bettorOf s p
        if b.locked then (s, Outcome.proposalLocked)
        else if b.proposal.contains item then
          (setBettor s p { b with proposal := b.proposal.erase item }, Outcome.ok)
        else (s, Outcome.itemNotFound)
  | Event.bulkStart uid items anyFav =>
    -- BallsSelector.confirm_button up to the favorite dialog
    -- (menu.py lines 458-499)
    if terminalGB s then (s, Outcome.noBet)
    else match getBettor s uid with
      | none => (s, Outcome.noBet)
      | some p =>
        let b := bettorOf s p
        if b.locked then (s, Outcome.proposalLocked)
        else if items.any (fun it => b.proposal.contains it) then (s, Outcome.duplicateItem)
        else if items.isEmpty then (s, Outcome.emptySelection)
        else if anyFav then
          ({ s with pendingBulks := s.pendingBulks ++ [(p, items)] }, Outcome.waiting)
        else (setBettor s p { b with proposal := b.proposal ++ items }, Outcome.ok)
  | Event.bulkResume i confirmed =>
    -- BallsSelector.confirm_button after view.wait (menu.py lines
    -- 496-508): appends with no re-check of the locked flag
    match s.pendingBulks.get? i with
    | none => (s, Outcome.noPending)
    | some pi =>
      let s := { s with pendingBulks := s.pendingBulks.eraseIdx i }
      if !confirmed then (s, Outcome.dialogDeclined)
      else
        let b := bettorOf s pi.1
        (setBettor s pi.1 { b with proposal := b.proposal ++ pi.2 }, Outcome.ok)
  | Event.buildTimeout =>
    -- update_message_loop 30-minute ceiling (menu.py lines 257-261)
    if s.taskRunning then (cancelMenu s "The bet timed out", Outcome.ok)
    else (s, Outcome.notDelivered)
  | Event.confirmTimeout =>
    -- ConfirmView.on_timeout (menu.py lines 136-139)
    if s.viewKind == ViewKind.confirmView && !s.viewFinished then
      (cancelMenu s "The bet has timed out.", Outcome.ok)
    else (s, Outcome.notDelivered)
  | Event.refreshError =>
    -- exception branch of update_message_loop (menu.py lines 263-272)
    if s.taskRunning then (cancelMenu s "The bet errored", Outcome.ok)
    else (s, Outcome.notDelivered)

/-- Session state created by `cog.Bet.begin` (cog.py lines 131-135):
fresh `BettingUser`s, a live `BetView` and the refresh task started. -/
def initState (uid1 uid2 pid1 pid2 : Nat) : SysState :=
  { bettor1 := { userId := uid1, playerId := pid1, proposal := [],
                 locked := false, accepted := false, cancelled := false },
    bettor2 := { userId := uid2, playerId := pid2, proposal := [],
                 locked := false, accepted := false, cancelled := false },
    viewKind := ViewKind.betView, viewFinished := false, taskRunning := true,
    cooldownStarted := false, description := "",
    pendingAdds := [], pendingBulks := [], pendingClears := [],
    pendingCancels := [], pendingDenies := [], resolveCount := 0 }

/-- Run a list of handler segments in order. -/
def runTrace (s : SysState) : List Event → SysState
  | [] => s
  | e :: rest => runTrace (handleEvent s e).1 rest

/-! ## Registry layer: `cog.Bet.get_bet` and `cog.Bet.begin` on the
per-channel session list `self.bets[guild.id][channel.id]`. -/

/-- Mirror of the scan loop of `cog.Bet.get_bet` (cog.py lines 71-93):
walk the channel list; sessions satisfying the removal condition are
collected in `to_remove` and removed from the list in both the found and
the not-found branch; the first remaining session containing the user
stops the scan (sessions after it are neither inspected nor removed).
Returns the found (session, bettor) pair and the updated channel list. -/
def scanBets (uid : Nat) : List SysState → Option (SysState × Bool) × List SysState
  | [] => (none, [])
  | bet :: rest =>
    if terminalGB bet then scanBets uid rest
    else match getBettor bet uid with
      | some p => (some (bet, p), bet :: rest)
      | none =>
        let r := scanBets uid rest
        (r.1, bet :: r.2)

/-- Result of `cog.Bet.begin`. -/
inductive BeginResult
  | started
  | selfBet
  | callerBusy
  | otherBusy
deriving DecidableEq, Repr

/-- Mirror of `cog.Bet.begin` (cog.py lines 95-136): reject self-bets,
run the `get_bet` lookup for both parties (each lookup prunes the
channel list), fail if either found an ongoing bet, otherwise create and
register a new `BetMenu`.  There is no `await` between the lookups and
the `append`, so the check-then-insert is one atomic segment. -/
def beginBet (reg : List SysState) (uid1 uid2 pid1 pid2 : Nat) :
    List SysState × BeginResult :=
  if uid2 == uid1 then (reg, BeginResult.selfBet)
  else
    match (scanBets uid1 reg).1 with
    | some _ => ((scanBets uid2 (scanBets uid1 reg).2).2, BeginResult.callerBusy)
    | none =>
      match (scanBets uid2 (scanBets uid1 reg).2).1 with
      | some _ => ((scanBets uid2 (scanBets uid1 reg).2).2, BeginResult.otherBusy)
      | none => ((scanBets uid2 (scanBets uid1 reg).2).2
          ++ [initState uid1 uid2 pid1 pid2], BeginResult.started)

/-- An event touching the registry of one channel: a `/bet begin`, a
lookup through `get_bet` (issued by `/bet add`, `/bet remove`,
`/bet view`, bulk add), or one handler segment of the session at a given
index. -/
inductive RegEvent
  | beginEv (uid1 uid2 pid1 pid2 : Nat)
  | lookupEv (uid : Nat)
  | sessionEv (i : Nat) (e : Event)
deriving DecidableEq, Repr

def regStep (reg : List SysState) (e : RegEvent) : List SysState :=
  match e with
  | RegEvent.beginEv u1 u2 p1 p2 => (beginBet reg u1 u2 p1 p2).1
  | RegEvent.lookupEv u => (scanBets u reg).2
  | RegEvent.sessionEv i e =>
    match reg.get? i with
    | none => reg
    | some s => reg.set i (handleEvent s e).1

def runReg (reg : List SysState) : List RegEvent → List SysState
  | [] => reg
  | e :: rest => runReg (regStep reg e) rest

/-- A session is counted for a user when the `get_bet` scan would keep
it and hand it back: not removable and containing the user. -/
def activeWith (uid : Nat) (s : SysState) : Bool :=
  !terminalGB s && (getBettor s uid).isSome

/-- Number of non-terminal sessions of the channel containing a user. -/
def countActive (uid : Nat) (reg : List SysState) : Nat :=
  reg.countP (fun s => activeWith uid s)

/-! ## Resolution: the winner selection and transfer block of
`BetMenu.confirm` (menu.py lines 335-353), acting on the persisted
ownership map of the ball store. -/

/-- Mirror of the transfer loop: `for nba in loser.proposal:
nba.player = winner.player; await nba.save()`.  `owner` is the persisted
ownership map (ball id to player id), `saveOk` tells whether the save of
a given ball succeeds; the first failing save raises, aborting the loop
with the earlier saves kept (no rollback). -/
def transferLoop (items : List Nat) (winnerPid : Nat) (owner : Nat → Nat)
    (saveOk : Nat → Bool) : (Nat → Nat) × Bool :=
  match items with
  | [] => (owner, true)
  | it :: rest =>
    if saveOk it then
      transferLoop rest winnerPid (fun b => if b = it then winnerPid else owner b) saveOk
    else (owner, false)

/-- Mirror of the resolution block of `BetMenu.confirm`: `coin` is
`random.choice([True, False])` assigned to `winner_is_bettor1`; the
loser proposal is transferred to the winner player.  Returns the winner
flag, the new ownership map and whether the loop fully succeeded. -/
def betResolve (coin : Bool) (b1 b2 : BettingUser) (owner : Nat → Nat)
    (saveOk : Nat → Bool) : Bool × (Nat → Nat) × Bool :=
  let winner := if coin then b1 else b2
  let loser := if coin then b2 else b1
  let r := transferLoop loser.proposal winner.playerId owner saveOk
  (coin, r.1, r.2)

/-! ## Monotonicity of the session flags -/

/-- The six per-party flags and the view-finished flag only ever go from
false to true, and the party identities never change, across one handler
segment. -/
def MonoRel (s t : SysState) : Prop :=
  (s.bettor1.locked = true → t.bettor1.locked = true)
  ∧ (s.bettor2.locked = true → t.bettor2.locked = true)
  ∧ (s.bettor1.accepted = true → t.bettor1.accepted = true)
  ∧ (s.bettor2.accepted = true → t.bettor2.accepted = true)
  ∧ (s.bettor1.cancelled = true → t.bettor1.cancelled = true)
  ∧ (s.bettor2.cancelled = true → t.bettor2.cancelled = true)
  ∧ (s.viewFinished = true → t.viewFinished = true)
  ∧ t.bettor1.userId = s.bettor1.userId
  ∧ t.bettor2.userId = s.bettor2.userId

theorem monoRel_refl (s : SysState) : MonoRel s s := by
  unfold MonoRel; simp

theorem monoRel_trans {s t u : SysState} (h1 : MonoRel s t) (h2 : MonoRel t u) :
    MonoRel s u := by
  obtain ⟨a1, a2, a3, a4, a5, a6, a7, a8, a9⟩ := h1
  obtain ⟨b1, b2, b3, b4, b5, b6, b7, b8, b9⟩ := h2
  exact ⟨fun h => b1 (a1 h), fun h => b2 (a2 h), fun h => b3 (a3 h),
    fun h => b4 (a4 h), fun h => b5 (a5 h), fun h => b6 (a6 h),
    fun h => b7 (a7 h), by rw [b8, a8], by rw [b9, a9]⟩

/-- States agreeing on both bettors and the finished flag are related. -/
theorem monoRel_frame {s t : SysState} (h1 : t.bettor1 = s.bettor1)
    (h2 : t.bettor2 = s.bettor2) (h7 : t.viewFinished = s.viewFinished) :
    MonoRel s t := by
  unfold MonoRel; rw [h1, h2, h7]; simp

theorem mono_cancelMenu (s : SysState) (r : String) : MonoRel s (cancelMenu s r) := by
  unfold MonoRel cancelMenu; simp

theorem mono_setBettor_proposal (s : SysState) (p : Bool) (l : List Nat) :
    MonoRel s (setBettor s p { bettorOf s p with proposal := l }) := by
  unfold MonoRel setBettor bettorOf; cases p <;> simp

theorem mono_setBettor_cancelled (s : SysState) (p : Bool) :
    MonoRel s (setBettor s p { bettorOf s p with cancelled := true }) := by
  unfold MonoRel setBettor bettorOf; cases p <;> simp

theorem mono_userCancelMenu (s : SysState) (p : Bool) : MonoRel s (userCancelMenu s p) := by
  unfold userCancelMenu
  exact monoRel_trans (mono_setBettor_cancelled s p) (mono_cancelMenu _ _)

theorem mono_setBettor_locked (s : SysState) (p : Bool) :
    MonoRel s (setBettor s p { bettorOf s p with locked := true }) := by
  unfold MonoRel setBettor bettorOf; cases p <;> simp

theorem mono_setBettor_accepted (s : SysState) (p : Bool) :
    MonoRel s (setBettor s p { bettorOf s p with accepted := true }) := by
  unfold MonoRel setBettor bettorOf; cases p <;> simp

theorem mono_lockMenu (s : SysState) (p : Bool) (hv : s.viewFinished = false) :
    MonoRel s (lockMenu s p) := by
  unfold MonoRel lockMenu setBettor bettorOf cancelMenu
  cases p <;> simp only [] <;> split_ifs <;> simp_all

theorem mono_confirmMenu (s : SysState) (p : Bool) (coin transferOk : Bool) :
    MonoRel s (confirmMenu s p coin transferOk).1 := by
  unfold MonoRel confirmMenu setBettor bettorOf
  cases p <;> simp only [] <;> split_ifs <;> simp_all

theorem handleEvent_mono (s : SysState) (e : Event) : MonoRel s (handleEvent s e).1 := by
  cases e <;> simp only [handleEvent]
  case lockBtn uid =>
    split
    · exact monoRel_refl s
    next hguard =>
      cases hg : getBettor s uid with
      | none => exact monoRel_refl s
      | some p =>
        simp only []
        split
        · exact monoRel_refl s
        · have hv : s.viewFinished = false := by
            revert hguard; cases s.viewFinished <;> simp
          exact mono_lockMenu s p hv
  case clearStart uid =>
    split
    · exact monoRel_refl s
    · cases hg : getBettor s uid with
      | none => exact monoRel_refl s
      | some p =>
        simp only []
        split
        · exact monoRel_refl s
        · exact monoRel_frame rfl rfl rfl
  case clearResume i confirmed =>
    cases hg : s.pendingClears.get? i with
    | none => exact monoRel_refl s
    | some p =>
      simp only []
      refine monoRel_trans (t := { s with pendingClears := s.pendingClears.eraseIdx i })
        (monoRel_frame rfl rfl rfl) ?_
      split
      · exact monoRel_refl _
      · split
        · exact monoRel_refl _
        · exact mono_setBettor_proposal _ p []
  case cancelStart uid =>
    split
    · exact monoRel_refl s
    · cases hg : getBettor s uid with
      | none => exact monoRel_refl s
      | some p => exact monoRel_frame rfl rfl rfl
  case cancelResume i confirmed =>
    cases hg : s.pendingCancels.get? i with
    | none => exact monoRel_refl s
    | some p =>
      simp only []
      refine monoRel_trans (t := { s with pendingCancels := s.pendingCancels.eraseIdx i })
        (monoRel_frame rfl rfl rfl) ?_
      split
      · exact monoRel_refl _
      · exact mono_userCancelMenu _ p
  case acceptBtn uid coin transferOk =>
    split
    · exact monoRel_refl s
    · cases hg : getBettor s uid with
      | none => exact monoRel_refl s
      | some p =>
        simp only []
        split
        · exact monoRel_refl s
        · split <;> exact mono_confirmMenu s p coin transferOk
  case denyStart uid =>
    split
    · exact monoRel_refl s
    · cases hg : getBettor s uid with
      | none => exact monoRel_refl s
      | some p => exact monoRel_frame rfl rfl rfl
  case denyResume i confirmed =>
    cases hg : s.pendingDenies.get? i with
    | none => exact monoRel_refl s
    | some p =>
      simp only []
      refine monoRel_trans (t := { s with pendingDenies := s.pendingDenies.eraseIdx i })
        (monoRel_frame rfl rfl rfl) ?_
      split
      · exact monoRel_refl _
      · split
        · exact monoRel_refl _
        · exact mono_userCancelMenu _ p
  case addStart uid item isFav =>
    split
    · exact monoRel_refl s
    · cases hg : getBettor s uid with
      | none => exact monoRel_refl s
      | some p =>
        simp only []
        split
        · exact monoRel_refl s
        · split
          · exact monoRel_refl s
          · split
            · exact monoRel_frame rfl rfl rfl
            · exact mono_setBettor_proposal s p _
  case addResume i confirmed =>
    cases hg : s.pendingAdds.get? i with
    | none => exact monoRel_refl s
    | some pi =>
      simp only []
      refine monoRel_trans (t := { s with pendingAdds := s.pendingAdds.eraseIdx i })
        (monoRel_frame rfl rfl rfl) ?_
      split
      · exact monoRel_refl _
      · exact mono_setBettor_proposal _ pi.1 _
  case removeCmd uid item =>
    split
    · exact monoRel_refl s
    · cases hg : getBettor s uid with
      | none => exact monoRel_refl s
      | some p =>
        simp only []
        split
        · exact monoRel_refl s
        · split
          · exact mono_setBettor_proposal s p _
          · exact monoRel_refl s
  case bulkStart uid items anyFav =>
    split
    · exact monoRel_refl s
    · cases hg : getBettor s uid with
      | none => exact monoRel_refl s
      | some p =>
        simp only []
        split
        · exact monoRel_refl s
        · split
          · exact monoRel_refl s
          · split
            · exact monoRel_refl s
            · split
              · exact monoRel_frame rfl rfl rfl
              · exact mono_setBettor_proposal s p _
  case bulkResume i confirmed =>
    cases hg : s.pendingBulks.get? i with
    | none => exact monoRel_refl s
    | some pi =>
      simp only []
      refine monoRel_trans (t := { s with pendingBulks := s.pendingBulks.eraseIdx i })
        (monoRel_frame rfl rfl rfl) ?_
      split
      · exact monoRel_refl _
      · exact mono_setBettor_proposal _ pi.1 _
  case buildTimeout =>
    split
    · exact mono_cancelMenu s _
    · exact monoRel_refl s
  case confirmTimeout =>
    split
    · exact mono_cancelMenu s _
    · exact monoRel_refl s
  case refreshError =>
    split
    · exact mono_cancelMenu s _
    · exact monoRel_refl s

theorem runTrace_mono (s : SysState) (tr : List Event) : MonoRel s (runTrace s tr) := by
  induction tr generalizing s with
  | nil => exact monoRel_refl s
  | cons e rest ih => exact monoRel_trans (handleEvent_mono s e) (ih (handleEvent s e).1)

/-! ## The session invariant -/

/-- Invariant of reachable session states: the `ConfirmView` is only
installed once both parties are locked, accepted implies locked, and the
resolution block has run exactly once when both accepted and never
otherwise. -/
def goodState (s : SysState) : Prop :=
  (s.viewKind = ViewKind.confirmView → s.bettor1.locked = true ∧ s.bettor2.locked = true)
  ∧ (s.bettor1.accepted = true → s.bettor1.locked = true)
  ∧ (s.bettor2.accepted = true → s.bettor2.locked = true)
  ∧ s.resolveCount = (if s.bettor1.accepted && s.bettor2.accepted then 1 else 0)

instance (s : SysState) : Decidable (goodState s) := by
  unfold goodState; infer_instance

theorem goodState_cancelMenu {s : SysState} (h : goodState s) (r : String) :
    goodState (cancelMenu s r) := by
  unfold goodState cancelMenu at *; simpa using h

theorem goodState_userCancelMenu {s : SysState} (h : goodState s) (p : Bool) :
    goodState (userCancelMenu s p) := by
  unfold goodState userCancelMenu cancelMenu setBettor bettorOf at *
  cases p <;> simp_all

theorem goodState_pends {s t : SysState} (h : goodState s)
    (h1 : t.bettor1 = s.bettor1) (h2 : t.bettor2 = s.bettor2)
    (hk : t.viewKind = s.viewKind) (hr : t.resolveCount = s.resolveCount) :
    goodState t := by
  unfold goodState at *
  rw [h1, h2, hk, hr]; exact h

theorem goodState_setBettor_proposal {s : SysState} (h : goodState s) (p : Bool)
    (l : List Nat) : goodState (setBettor s p { bettorOf s p with proposal := l }) := by
  unfold goodState setBettor bettorOf at *
  cases p <;> simp_all

theorem goodState_lockMenu {s : SysState} (h : goodState s) (p : Bool) :
    goodState (lockMenu s p) := by
  unfold goodState lockMenu cancelMenu setBettor bettorOf at *
  cases p <;> simp only [] <;> split_ifs <;> simp_all

theorem goodState_confirmMenu {s : SysState} (h : goodState s) (p : Bool)
    (coin transferOk : Bool) (hl : (bettorOf s p).locked = true)
    (hna : (bettorOf s p).accepted = false) :
    goodState (confirmMenu s p coin transferOk).1 := by
  unfold goodState confirmMenu setBettor bettorOf at *
  cases p <;> simp only [] <;> split_ifs <;> simp_all

theorem goodState_step {s : SysState} (e : Event) (h : goodState s) :
    goodState (handleEvent s e).1 := by
  cases e <;> simp only [handleEvent]
  case lockBtn uid =>
    split
    · exact h
    · cases hg : getBettor s uid with
      | none => exact h
      | some p =>
        simp only []
        split
        · exact h
        · exact goodState_lockMenu h p
  case clearStart uid =>
    split
    · exact h
    · cases hg : getBettor s uid with
      | none => exact h
      | some p =>
        simp only []
        split
        · exact h
        · exact goodState_pends h rfl rfl rfl rfl
  case clearResume i confirmed =>
    cases hg : s.pendingClears.get? i with
    | none => exact h
    | some p =>
      simp only []
      have h1 : goodState { s with pendingClears := s.pendingClears.eraseIdx i } :=
        goodState_pends h rfl rfl rfl rfl
      split
      · exact h1
      · split
        · exact h1
        · exact goodState_setBettor_proposal h1 p []
  case cancelStart uid =>
    split
    · exact h
    · cases hg : getBettor s uid with
      | none => exact h
      | some p => exact goodState_pends h rfl rfl rfl rfl
  case cancelResume i confirmed =>
    cases hg : s.pendingCancels.get? i with
    | none => exact h
    | some p =>
      simp only []
      have h1 : goodState { s with pendingCancels := s.pendingCancels.eraseIdx i } :=
        goodState_pends h rfl rfl rfl rfl
      split
      · exact h1
      · exact goodState_userCancelMenu h1 p
  case acceptBtn uid coin transferOk =>
    split
    · exact h
    next hguard =>
      cases hg : getBettor s uid with
      | none => exact h
      | some p =>
        simp only []
        split
        · exact h
        next hna =>
          have hconf : s.viewKind = ViewKind.confirmView := by
            revert hguard
            cases hk : s.viewKind <;> simp [hk]
          have hl : (bettorOf s p).locked = true := by
            obtain ⟨hvk, _, _, _⟩ := h
            obtain ⟨l1, l2⟩ := hvk hconf
            cases p
            · simpa [bettorOf] using l2
            · simpa [bettorOf] using l1
          have hg2 := goodState_confirmMenu h p coin transferOk hl
            (by revert hna; cases hx : (bettorOf s p).accepted <;> simp)
          split <;> exact hg2
  case denyStart uid =>
    split
    · exact h
    · cases hg : getBettor s uid with
      | none => exact h
      | some p => exact goodState_pends h rfl rfl rfl rfl
  case denyResume i confirmed =>
    cases hg : s.pendingDenies.get? i with
    | none => exact h
    | some p =>
      simp only []
      have h1 : goodState { s with pendingDenies := s.pendingDenies.eraseIdx i } :=
        goodState_pends h rfl rfl rfl rfl
      split
      · exact h1
      · split
        · exact h1
        · exact goodState_userCancelMenu h1 p
  case addStart uid item isFav =>
    split
    · exact h
    · cases hg : getBettor s uid with
      | none => exact h
      | some p =>
        simp only []
        split
        · exact h
        · split
          · exact h
          · split
            · exact goodState_pends h rfl rfl rfl rfl
            · exact goodState_setBettor_proposal h p _
  case addResume i confirmed =>
    cases hg : s.pendingAdds.get? i with
    | none => exact h
    | some pi =>
      simp only []
      have h1 : goodState { s with pendingAdds := s.pendingAdds.eraseIdx i } :=
        goodState_pends h rfl rfl rfl rfl
      split
      · exact h1
      · exact goodState_setBettor_proposal h1 pi.1 _
  case removeCmd uid item =>
    split
    · exact h
    · cases hg : getBettor s uid with
      | none => exact h
      | some p =>
        simp only []
        split
        · exact h
        · split
          · exact goodState_setBettor_proposal h p _
          · exact h
  case bulkStart uid items anyFav =>
    split
    · exact h
    · cases hg : getBettor s uid with
      | none => exact h
      | some p =>
        simp only []
        split
        · exact h
        · split
          · exact h
          · split
            · exact h
            · split
              · exact goodState_pends h rfl rfl rfl rfl
              · exact goodState_setBettor_proposal h p _
  case bulkResume i confirmed =>
    cases hg : s.pendingBulks.get? i with
    | none => exact h
    | some pi =>
      simp only []
      have h1 : goodState { s with pendingBulks := s.pendingBulks.eraseIdx i } :=
        goodState_pends h rfl rfl rfl rfl
      split
      · exact h1
      · exact goodState_setBettor_proposal h1 pi.1 _
  case buildTimeout =>
    split
    · exact goodState_cancelMenu h _
    · exact h
  case confirmTimeout =>
    split
    · exact goodState_cancelMenu h _
    · exact h
  case refreshError =>
    split
    · exact goodState_cancelMenu h _
    · exact h

theorem goodState_runTrace {s : SysState} (h : goodState s) (tr : List Event) :
    goodState (runTrace s tr) := by
  induction tr generalizing s with
  | nil => exact h
  | cons e rest ih => exact ih (goodState_step e h)

theorem goodState_init (u1 u2 p1 p2 : Nat) : goodState (initState u1 u2 p1 p2) := by
  unfold goodState initState; simp

@[simp] theorem setBettor_resolveCount (s : SysState) (p : Bool) (b : BettingUser) :
    (setBettor s p b).resolveCount = s.resolveCount := by cases p <;> rfl

@[simp] theorem setBettor_viewKind (s : SysState) (p : Bool) (b : BettingUser) :
    (setBettor s p b).viewKind = s.viewKind := by cases p <;> rfl

@[simp] theorem setBettor_viewFinished (s : SysState) (p : Bool) (b : BettingUser) :
    (setBettor s p b).viewFinished = s.viewFinished := by cases p <;> rfl

@[simp] theorem setBettor_cooldownStarted (s : SysState) (p : Bool) (b : BettingUser) :
    (setBettor s p b).cooldownStarted = s.cooldownStarted := by cases p <;> rfl

@[simp] theorem setBettor_taskRunning (s : SysState) (p : Bool) (b : BettingUser) :
    (setBettor s p b).taskRunning = s.taskRunning := by cases p <;> rfl

/-- Once the current view is stopped, no later handler segment can change
the view class, the deadline clock, or restart the view: the session is
frozen in its terminal rendering (only proposals of dead sessions and
pending-dialog lists can still move). -/
theorem finished_frame (s : SysState) (e : Event) (hv : s.viewFinished = true) :
    (handleEvent s e).1.viewKind = s.viewKind
    ∧ (handleEvent s e).1.cooldownStarted = s.cooldownStarted
    ∧ (handleEvent s e).1.viewFinished = true := by
  cases e <;>
    simp only [handleEvent, hv, terminalGB, userCancelMenu, cancelMenu, Bool.true_or,
      if_pos rfl] <;>
    (repeat' split) <;>
    simp_all

theorem finished_frame_trace (s : SysState) (tr : List Event) (hv : s.viewFinished = true) :
    (runTrace s tr).viewKind = s.viewKind
    ∧ (runTrace s tr).cooldownStarted = s.cooldownStarted
    ∧ (runTrace s tr).viewFinished = true := by
  induction tr generalizing s with
  | nil => exact ⟨rfl, rfl, hv⟩
  | cons e rest ih =>
    obtain ⟨h1, h2, h3⟩ := finished_frame s e hv
    obtain ⟨g1, g2, g3⟩ := ih (handleEvent s e).1 h3
    exact ⟨by rw [runTrace, g1, h1], by rw [runTrace, g2, h2], by rw [runTrace, g3]⟩

/-- The resolution counter moves only on the handler segment in which
the second accepted flag is set: every segment either leaves it
untouched, or increments it exactly when both-accepted goes from false
to true. -/
theorem resolveCount_step (s : SysState) (e : Event) :
    (handleEvent s e).1.resolveCount = s.resolveCount
    ∨ ((handleEvent s e).1.resolveCount = s.resolveCount + 1
       ∧ (s.bettor1.accepted && s.bettor2.accepted) = false
       ∧ ((handleEvent s e).1.bettor1.accepted
          && (handleEvent s e).1.bettor2.accepted) = true) := by
  cases e <;> simp only [handleEvent]
  case acceptBtn uid coin transferOk =>
    split
    · left; rfl
    · cases hg : getBettor s uid with
      | none => left; rfl
      | some p =>
        simp only []
        split
        · left; rfl
        next hna =>
          have hnacc : (bettorOf s p).accepted = false := by
            revert hna; cases hx : (bettorOf s p).accepted <;> simp
          have hboth : (s.bettor1.accepted && s.bettor2.accepted) = false := by
            cases p <;> simp_all [bettorOf]
          unfold confirmMenu
          simp only []
          split
          next hacc =>
            right
            split <;>
              simp_all [setBettor, bettorOf] <;>
              (try (cases p <;> simp_all))
          · left; simp
  all_goals
    (repeat' split) <;> simp_all [userCancelMenu, cancelMenu, lockMenu] <;>
      (repeat' split) <;> simp_all

/-! ## Example states used by the witnesses -/

/-- Party 1 added ball 5 and locked; party 2 still building. -/
def exLockedState : SysState :=
  runTrace (initState 1 2 10 20) [Event.addStart 1 5 false, Event.lockBtn 1]

/-- Both locked (party 1 staked ball 5), party 2 accepted, waiting on party 1. -/
def exAcceptedState : SysState :=
  runTrace (initState 1 2 10 20)
    [Event.addStart 1 5 false, Event.lockBtn 1, Event.lockBtn 2,
     Event.acceptBtn 2 true true]

/-- Party 1 locked with an empty proposal; party 2 still building. -/
def exEmptyLockState : SysState :=
  runTrace (initState 1 2 10 20) [Event.lockBtn 1]

/-! ## Claim theorems (session level) -/

/-- Claim C1: once the lock of a party has succeeded, every subsequent
`/bet add` (`addStart`), `/bet remove` (`removeCmd`) and bulk-add
confirm (`bulkStart`) call by that party that reaches the session
through the registry lookup is rejected with the proposal-locked
message and leaves the whole session state, in particular that party
proposal list, unchanged — for every interleaving `tr` of other handler
segments (including suspended favorite-confirmation sub-dialogs)
between the lock and the call, because the locked flag is monotone and
each of the three entry points checks it before any mutation and before
opening any sub-dialog. -/
theorem locked_party_add_remove_rejected
    (s0 : SysState) (p : Bool) (tr : List Event)
    (hl : (bettorOf s0 p).locked = true)
    (uid item : Nat) (items : List Nat) (isFav anyFav : Bool)
    (hterm : terminalGB (runTrace s0 tr) = false)
    (hu : getBettor (runTrace s0 tr) uid = some p) :
    handleEvent (runTrace s0 tr) (Event.addStart uid item isFav)
      = (runTrace s0 tr, Outcome.proposalLocked)
    ∧ handleEvent (runTrace s0 tr) (Event.removeCmd uid item)
      = (runTrace s0 tr, Outcome.proposalLocked)
    ∧ handleEvent (runTrace s0 tr) (Event.bulkStart uid items anyFav)
      = (runTrace s0 tr, Outcome.proposalLocked) := by
  obtain ⟨m1, m2, _, _, _, _, _, _, _⟩ := runTrace_mono s0 tr
  have hl2 : (bettorOf (runTrace s0 tr) p).locked = true := by
    cases p
    · have hl' : s0.bettor2.locked = true := by simpa [bettorOf] using hl
      simpa [bettorOf] using m2 hl'
    · have hl' : s0.bettor1.locked = true := by simpa [bettorOf] using hl
      simpa [bettorOf] using m1 hl'
  refine ⟨?_, ?_, ?_⟩ <;> simp [handleEvent, hterm, hu, hl2]

theorem locked_party_add_remove_rejected_witness :
    (handleEvent (runTrace exLockedState []) (Event.addStart 1 6 false)
      = (runTrace exLockedState [], Outcome.proposalLocked)
    ∧ handleEvent (runTrace exLockedState []) (Event.removeCmd 1 6)
      = (runTrace exLockedState [], Outcome.proposalLocked)
    ∧ handleEvent (runTrace exLockedState []) (Event.bulkStart 1 [6, 7] false)
      = (runTrace exLockedState [], Outcome.proposalLocked)) :=
  locked_party_add_remove_rejected exLockedState true [] (by decide) 1 6 [6, 7]
    false false (by decide) (by decide)

/-- Claim C2: in every execution of a session from its creation, the
resolution block of `BetMenu.confirm` (winner selection plus ownership
transfer loop) has run at most once; it has run exactly once precisely
when both accepted flags hold; and each individual handler segment
either leaves the resolution counter untouched or increments it on
exactly the transition where both accepted flags first become true, so
racing or repeated confirm presses cannot double-resolve. -/
theorem resolution_at_most_once (u1 u2 p1 p2 : Nat) (tr : List Event) :
    (runTrace (initState u1 u2 p1 p2) tr).resolveCount ≤ 1
    ∧ ((runTrace (initState u1 u2 p1 p2) tr).resolveCount = 1
        ↔ (runTrace (initState u1 u2 p1 p2) tr).bettor1.accepted = true
          ∧ (runTrace (initState u1 u2 p1 p2) tr).bettor2.accepted = true)
    ∧ (∀ (s : SysState) (e : Event),
        (handleEvent s e).1.resolveCount = s.resolveCount
        ∨ ((handleEvent s e).1.resolveCount = s.resolveCount + 1
           ∧ (s.bettor1.accepted && s.bettor2.accepted) = false
           ∧ ((handleEvent s e).1.bettor1.accepted
              && (handleEvent s e).1.bettor2.accepted) = true)) := by
  obtain ⟨_, _, _, hrc⟩ := goodState_runTrace (goodState_init u1 u2 p1 p2) tr
  refine ⟨?_, ?_, fun s e => resolveCount_step s e⟩
  · rw [hrc]; split <;> omega
  · rw [hrc]
    constructor
    · intro h
      split at h
      · next hb => simpa [Bool.and_eq_true] using hb
      · omega
    · rintro ⟨h1, h2⟩
      simp [h1, h2]

/-- Claim C6: on the lock that makes both parties locked, with both
proposals empty the session is immediately cancelled with the
nothing-proposed reason — the `ConfirmView` is never installed and the
confirmation deadline clock never starts, in this step or any later
one; with at least one non-empty proposal the session advances to the
confirmation phase (`ConfirmView` installed, live) and the deadline
clock is started. -/
theorem lock_both_empty_autocancel_else_confirm
    (s : SysState) (uid : Nat) (p : Bool)
    (hvk : s.viewKind = ViewKind.betView) (hvf : s.viewFinished = false)
    (hcs : s.cooldownStarted = false)
    (hu : getBettor s uid = some p)
    (hnl : (bettorOf s p).locked = false)
    (hol : (bettorOf s (!p)).locked = true) :
    (s.bettor1.proposal = [] → s.bettor2.proposal = [] →
      ((handleEvent s (Event.lockBtn uid)).1.viewFinished = true
       ∧ (handleEvent s (Event.lockBtn uid)).1.description
           = "**Nothing has been proposed in the bet, it has been cancelled.**"
       ∧ ∀ tr : List Event,
           (runTrace (handleEvent s (Event.lockBtn uid)).1 tr).viewKind
             = ViewKind.betView
           ∧ (runTrace (handleEvent s (Event.lockBtn uid)).1 tr).cooldownStarted
             = false))
    ∧ (¬(s.bettor1.proposal = [] ∧ s.bettor2.proposal = []) →
      ((handleEvent s (Event.lockBtn uid)).1.viewKind = ViewKind.confirmView
       ∧ (handleEvent s (Event.lockBtn uid)).1.cooldownStarted = true
       ∧ (handleEvent s (Event.lockBtn uid)).1.viewFinished = false)) := by
  have hstep : (handleEvent s (Event.lockBtn uid)).1 = lockMenu s p := by
    simp [handleEvent, hvf, hvk, hu, hnl]
  rw [hstep]
  have holocked : (if p then s.bettor2.locked else s.bettor1.locked) = true := by
    cases p <;> simpa [bettorOf] using hol
  constructor
  · intro h1 h2
    have hcancel : lockMenu s p
        = cancelMenu
            (setBettor { s with taskRunning := false } p
              { bettorOf s p with locked := true })
            "Nothing has been proposed in the bet, it has been cancelled." := by
      unfold lockMenu cancelMenu
      cases p <;> simp_all [setBettor, bettorOf]
    rw [hcancel]
    set t := cancelMenu
        (setBettor { s with taskRunning := false } p
          { bettorOf s p with locked := true })
        "Nothing has been proposed in the bet, it has been cancelled." with ht
    have htvf : t.viewFinished = true := by rw [ht]; rfl
    have htvk : t.viewKind = ViewKind.betView := by
      rw [ht]; unfold cancelMenu; simp [hvk]
    have htcs : t.cooldownStarted = false := by
      rw [ht]; unfold cancelMenu; simp [hcs]
    refine ⟨htvf, by rw [ht]; unfold cancelMenu; simp, ?_⟩
    intro tr
    obtain ⟨k1, k2, _⟩ := finished_frame_trace t tr htvf
    exact ⟨by rw [k1, htvk], by rw [k2, htcs]⟩
  · intro hne
    unfold lockMenu
    cases p <;>
      simp_all [setBettor, bettorOf] <;>
      rw [if_neg (by tauto)] <;>
      exact ⟨rfl, rfl, rfl⟩

theorem lock_both_empty_autocancel_else_confirm_witness :
    ((handleEvent exEmptyLockState (Event.lockBtn 2)).1.viewFinished = true
     ∧ (runTrace (handleEvent exEmptyLockState (Event.lockBtn 2)).1
          [Event.acceptBtn 1 true true]).viewKind = ViewKind.betView)
    ∧ ((handleEvent exLockedState (Event.lockBtn 2)).1.viewKind
         = ViewKind.confirmView
       ∧ (handleEvent exLockedState (Event.lockBtn 2)).1.cooldownStarted = true) := by
  have hA := (lock_both_empty_autocancel_else_confirm exEmptyLockState 2 false
    (by decide) (by decide) (by decide) (by decide) (by decide) (by decide)).1
    (by decide) (by decide)
  have hB := (lock_both_empty_autocancel_else_confirm exLockedState 2 false
    (by decide) (by decide) (by decide) (by decide) (by decide) (by decide)).2
    (by decide)
  exact ⟨⟨hA.1, (hA.2.2 [Event.acceptBtn 1 true true]).1⟩, hB.1, hB.2.1⟩

/-- Claim C8: while the session is in the building phase the confirm
surface does not exist — the `ConfirmView` accept button is only
installed on the both-locked transition — so a confirm attempt is
rejected without running any handler and without touching the state
(the realization of the NotLocked rejection); and a confirm by a party
that has already accepted is an idempotent no-op: the state is returned
unchanged, so the resolution block cannot be re-invoked. -/
theorem confirm_requires_lock_and_idempotent
    (s : SysState) (uid : Nat) (p : Bool) (coin transferOk : Bool) :
    (s.viewKind = ViewKind.betView →
      handleEvent s (Event.acceptBtn uid coin transferOk) = (s, Outcome.notDelivered))
    ∧ (s.viewFinished = false → s.viewKind = ViewKind.confirmView →
       getBettor s uid = some p → (bettorOf s p).accepted = true →
       handleEvent s (Event.acceptBtn uid coin transferOk)
         = (s, Outcome.alreadyAccepted)) := by
  constructor
  · intro h
    simp [handleEvent, h]
  · intro h1 h2 h3 h4
    simp [handleEvent, h1, h2, h3, h4]

theorem confirm_requires_lock_and_idempotent_witness :
    handleEvent (initState 1 2 10 20) (Event.acceptBtn 1 true true)
      = (initState 1 2 10 20, Outcome.notDelivered)
    ∧ handleEvent exAcceptedState (Event.acceptBtn 2 true true)
      = (exAcceptedState, Outcome.alreadyAccepted) :=
  ⟨(confirm_requires_lock_and_idempotent (initState 1 2 10 20) 1 true true true).1
      (by decide),
   (confirm_requires_lock_and_idempotent exAcceptedState 2 false true true).2
      (by decide) (by decide) (by decide) (by decide)⟩

/-- Claim C9: along every execution of a session from its creation, the
locked, accepted and cancelled flags of both parties are monotone
(never reset from true to false by any later handler segments), and in
every reachable state accepted implies locked for each party. -/
theorem flags_monotone_and_accepted_implies_locked
    (u1 u2 p1 p2 : Nat) (tr tr2 : List Event) :
    ((runTrace (initState u1 u2 p1 p2) tr).bettor1.locked = true →
      (runTrace (runTrace (initState u1 u2 p1 p2) tr) tr2).bettor1.locked = true)
    ∧ ((runTrace (initState u1 u2 p1 p2) tr).bettor2.locked = true →
      (runTrace (runTrace (initState u1 u2 p1 p2) tr) tr2).bettor2.locked = true)
    ∧ ((runTrace (initState u1 u2 p1 p2) tr).bettor1.accepted = true →
      (runTrace (runTrace (initState u1 u2 p1 p2) tr) tr2).bettor1.accepted = true)
    ∧ ((runTrace (initState u1 u2 p1 p2) tr).bettor2.accepted = true →
      (runTrace (runTrace (initState u1 u2 p1 p2) tr) tr2).bettor2.accepted = true)
    ∧ ((runTrace (initState u1 u2 p1 p2) tr).bettor1.cancelled = true →
      (runTrace (runTrace (initState u1 u2 p1 p2) tr) tr2).bettor1.cancelled = true)
    ∧ ((runTrace (initState u1 u2 p1 p2) tr).bettor2.cancelled = true →
      (runTrace (runTrace (initState u1 u2 p1 p2) tr) tr2).bettor2.cancelled = true)
    ∧ ((runTrace (initState u1 u2 p1 p2) tr).bettor1.accepted = true →
      (runTrace (initState u1 u2 p1 p2) tr).bettor1.locked = true)
    ∧ ((runTrace (initState u1 u2 p1 p2) tr).bettor2.accepted = true →
      (runTrace (initState u1 u2 p1 p2) tr).bettor2.locked = true) := by
  obtain ⟨m1, m2, m3, m4, m5, m6, _, _, _⟩ :=
    runTrace_mono (runTrace (initState u1 u2 p1 p2) tr) tr2
  obtain ⟨_, g1, g2, _⟩ := goodState_runTrace (goodState_init u1 u2 p1 p2) tr
  exact ⟨m1, m2, m3, m4, m5, m6, g1, g2⟩

theorem flags_monotone_and_accepted_implies_locked_witness :
    ((runTrace (initState 1 2 10 20) [Event.lockBtn 1]).bettor1.locked = true →
      (runTrace (runTrace (initState 1 2 10 20) [Event.lockBtn 1])
        [Event.cancelStart 2, Event.cancelResume 0 true]).bettor1.locked = true)
    ∧ (runTrace (runTrace (initState 1 2 10 20) [Event.lockBtn 1])
        [Event.cancelStart 2, Event.cancelResume 0 true]).bettor1.locked = true := by
  have h := flags_monotone_and_accepted_implies_locked 1 2 10 20 [Event.lockBtn 1]
    [Event.cancelStart 2, Event.cancelResume 0 true]
  exact ⟨h.1, h.1 (by decide)⟩

/-- Claim C10: an interaction by a user who is neither bettor on any of
the session view controls (lock, reset, cancel, accept, deny) is
rejected before the handler body runs — either the view no longer
listens, or the interaction check fails because the bettor lookup
raises — and the session state (proposals, flags, phase, pendings) is
returned entirely unchanged. -/
theorem stranger_interaction_no_effect
    (s : SysState) (uid : Nat)
    (h1 : uid ≠ s.bettor1.userId) (h2 : uid ≠ s.bettor2.userId)
    (coin transferOk : Bool) :
    (handleEvent s (Event.lockBtn uid) = (s, Outcome.notDelivered)
      ∨ handleEvent s (Event.lockBtn uid) = (s, Outcome.notAllowed))
    ∧ (handleEvent s (Event.clearStart uid) = (s, Outcome.notDelivered)
      ∨ handleEvent s (Event.clearStart uid) = (s, Outcome.notAllowed))
    ∧ (handleEvent s (Event.cancelStart uid) = (s, Outcome.notDelivered)
      ∨ handleEvent s (Event.cancelStart uid) = (s, Outcome.notAllowed))
    ∧ (handleEvent s (Event.acceptBtn uid coin transferOk) = (s, Outcome.notDelivered)
      ∨ handleEvent s (Event.acceptBtn uid coin transferOk) = (s, Outcome.notAllowed))
    ∧ (handleEvent s (Event.denyStart uid) = (s, Outcome.notDelivered)
      ∨ handleEvent s (Event.denyStart uid) = (s, Outcome.notAllowed)) := by
  have hnone : getBettor s uid = none := by
    simp [getBettor, h1, h2]
  refine ⟨?_, ?_, ?_, ?_, ?_⟩
  · by_cases hv : (s.viewFinished || s.viewKind == ViewKind.confirmView) = true
    · left; simp [handleEvent, hv]
    · right; simp [handleEvent, hv, hnone]
  · by_cases hv : (s.viewFinished || s.viewKind == ViewKind.confirmView) = true
    · left; simp [handleEvent, hv]
    · right; simp [handleEvent, hv, hnone]
  · by_cases hv : (s.viewFinished || s.viewKind == ViewKind.confirmView) = true
    · left; simp [handleEvent, hv]
    · right; simp [handleEvent, hv, hnone]
  · by_cases hv : (s.viewFinished || s.viewKind == ViewKind.betView) = true
    · left; simp [handleEvent, hv]
    · right; simp [handleEvent, hv, hnone]
  · by_cases hv : (s.viewFinished || s.viewKind == ViewKind.betView) = true
    · left; simp [handleEvent, hv]
    · right; simp [handleEvent, hv, hnone]

theorem stranger_interaction_no_effect_witness :
    (handleEvent (initState 1 2 10 20) (Event.lockBtn 7)
        = (initState 1 2 10 20, Outcome.notDelivered)
      ∨ handleEvent (initState 1 2 10 20) (Event.lockBtn 7)
        = (initState 1 2 10 20, Outcome.notAllowed))
    ∧ (handleEvent (initState 1 2 10 20) (Event.clearStart 7)
        = (initState 1 2 10 20, Outcome.notDelivered)
      ∨ handleEvent (initState 1 2 10 20) (Event.clearStart 7)
        = (initState 1 2 10 20, Outcome.notAllowed))
    ∧ (handleEvent (initState 1 2 10 20) (Event.cancelStart 7)
        = (initState 1 2 10 20, Outcome.notDelivered)
      ∨ handleEvent (initState 1 2 10 20) (Event.cancelStart 7)
        = (initState 1 2 10 20, Outcome.notAllowed))
    ∧ (handleEvent (initState 1 2 10 20) (Event.acceptBtn 7 true true)
        = (initState 1 2 10 20, Outcome.notDelivered)
      ∨ handleEvent (initState 1 2 10 20) (Event.acceptBtn 7 true true)
        = (initState 1 2 10 20, Outcome.notAllowed))
    ∧ (handleEvent (initState 1 2 10 20) (Event.denyStart 7)
        = (initState 1 2 10 20, Outcome.notDelivered)
      ∨ handleEvent (initState 1 2 10 20) (Event.denyStart 7)
        = (initState 1 2 10 20, Outcome.notAllowed)) :=
  stranger_interaction_no_effect (initState 1 2 10 20) 7 (by decide) (by decide)
    true true

/-! ## Registry lemmas -/

theorem scanBets_sublist (uid : Nat) (l : List SysState) :
    List.Sublist (scanBets uid l).2 l := by
  induction l with
  | nil => simp [scanBets]
  | cons b rest ih =>
    cases ht : terminalGB b with
    | true => simpa [scanBets, ht] using ih.cons b
    | false =>
      cases hg : getBettor b uid with
      | some p => simp [scanBets, ht, hg]
      | none => simpa [scanBets, ht, hg] using ih.cons₂ b

theorem scanBets_none_no_active (uid : Nat) (l : List SysState)
    (h : (scanBets uid l).1 = none) : ∀ b ∈ l, activeWith uid b = false := by
  induction l with
  | nil => simp
  | cons b rest ih =>
    cases ht : terminalGB b with
    | true =>
      simp only [scanBets, ht, if_pos rfl] at h
      intro x hx
      rcases List.mem_cons.mp hx with hx | hx
      · subst hx; simp [activeWith, ht]
      · exact ih h x hx
    | false =>
      cases hg : getBettor b uid with
      | some p => simp [scanBets, ht, hg] at h
      | none =>
        simp only [scanBets, ht, hg, Bool.false_eq_true, if_false] at h
        intro x hx
        rcases List.mem_cons.mp hx with hx | hx
        · subst hx; simp [activeWith, hg]
        · exact ih h x hx

theorem scanBets_some_of_active (uid : Nat) (l : List SysState) (b : SysState)
    (hm : b ∈ l) (hb : activeWith uid b = true) : (scanBets uid l).1.isSome = true := by
  cases hr : (scanBets uid l).1 with
  | none => exact absurd hb (by simp [scanBets_none_no_active uid l hr b hm])
  | some x => rfl

theorem mem_scanBets_of_not_terminal (uid : Nat) (l : List SysState) (b : SysState)
    (hm : b ∈ l) (hb : terminalGB b = false) : b ∈ (scanBets uid l).2 := by
  induction l with
  | nil => cases hm
  | cons a rest ih =>
    cases ht : terminalGB a with
    | true =>
      rcases List.mem_cons.mp hm with hx | hx
      · subst hx; rw [ht] at hb; cases hb
      · simpa [scanBets, ht] using ih hx
    | false =>
      cases hg : getBettor a uid with
      | some p => simpa [scanBets, ht, hg] using hm
      | none =>
        rcases List.mem_cons.mp hm with hx | hx
        · subst hx; simp [scanBets, ht, hg]
        · simp only [scanBets, ht, hg, Bool.false_eq_true, if_false, List.mem_cons]
          right
          exact ih hx

theorem activeWith_handleEvent (s : SysState) (e : Event) (u : Nat)
    (h : activeWith u (handleEvent s e).1 = true) : activeWith u s = true := by
  obtain ⟨_, _, _, _, h5, h6, h7, h8, h9⟩ := handleEvent_mono s e
  simp only [activeWith, terminalGB, getBettor, h8, h9, Bool.and_eq_true,
    Bool.not_eq_true', Bool.or_eq_false_iff] at h ⊢
  obtain ⟨⟨⟨hf, hc1⟩, hc2⟩, hsome⟩ := h
  refine ⟨⟨⟨?_, ?_⟩, ?_⟩, hsome⟩
  · exact Bool.eq_false_iff.mpr fun hx => by simp [h7 hx] at hf
  · exact Bool.eq_false_iff.mpr fun hx => by simp [h5 hx] at hc1
  · exact Bool.eq_false_iff.mpr fun hx => by simp [h6 hx] at hc2

theorem countP_set_le (l : List SysState) (i : Nat) (s t : SysState)
    (hget : l.get? i = some s) (f : SysState → Bool)
    (himp : f t = true → f s = true) :
    (l.set i t).countP f ≤ l.countP f := by
  induction l generalizing i with
  | nil => simp at hget
  | cons a rest ih =>
    cases i with
    | zero =>
      simp only [List.get?] at hget
      injection hget with hget
      rw [← hget] at himp
      simp only [List.set, List.countP_cons]
      have hle : (if f t then 1 else 0) ≤ (if f a then 1 else 0) := by
        by_cases hft : f t = true
        · simp [hft, himp hft]
        · simp [hft]
      omega
    | succ n =>
      simp only [List.get?] at hget
      simp only [List.set, List.countP_cons]
      have := ih n hget
      omega

theorem countActive_sublist (u : Nat) (l1 l2 : List SysState)
    (h : List.Sublist l1 l2) : countActive u l1 ≤ countActive u l2 :=
  h.countP_le _

theorem countActive_scan_zero (u : Nat) (l : List SysState)
    (h : (scanBets u l).1 = none) : countActive u l = 0 := by
  unfold countActive
  exact List.countP_eq_zero.mpr (by
    intro b hb
    simp [scanBets_none_no_active u l h b hb])

theorem countActive_singleton_le (u : Nat) (s : SysState) :
    countActive u [s] ≤ 1 := by
  simp only [countActive, List.countP_cons, List.countP_nil]
  split <;> omega

theorem countActive_singleton_zero (u : Nat) (s : SysState)
    (h : activeWith u s = false) : countActive u [s] = 0 := by
  simp [countActive, List.countP_cons, List.countP_nil, h]

theorem scanBets_some_active (uid : Nat) (l : List SysState) (b : SysState) (p : Bool)
    (h : (scanBets uid l).1 = some (b, p)) : b ∈ l ∧ activeWith uid b = true := by
  induction l with
  | nil => simp [scanBets] at h
  | cons a rest ih =>
    cases ht : terminalGB a with
    | true =>
      simp only [scanBets, ht, if_pos rfl] at h
      obtain ⟨hm, ha⟩ := ih h
      exact ⟨List.mem_cons_of_mem a hm, ha⟩
    | false =>
      cases hg : getBettor a uid with
      | some q =>
        simp only [scanBets, ht, Bool.false_eq_true, if_false, hg] at h
        injection h with h2
        have hab : a = b := congrArg Prod.fst h2
        subst hab
        exact ⟨List.mem_cons_self a rest, by simp [activeWith, ht, hg]⟩
      | none =>
        simp only [scanBets, ht, Bool.false_eq_true, if_false, hg] at h
        obtain ⟨hm, ha⟩ := ih h
        exact ⟨List.mem_cons_of_mem a hm, ha⟩

theorem beginBet_free_starts (reg : List SysState) (u1 u2 p1 p2 : Nat)
    (hne : u2 ≠ u1)
    (hfree : ∀ b ∈ reg, (activeWith u1 b || activeWith u2 b) = false) :
    (beginBet reg u1 u2 p1 p2).2 = BeginResult.started := by
  unfold beginBet
  rw [if_neg (by simp [hne])]
  cases hr1 : (scanBets u1 reg).1 with
  | some x =>
    obtain ⟨hm, ha⟩ := scanBets_some_active u1 reg x.1 x.2 (by rw [hr1])
    have := hfree x.1 hm
    rw [ha] at this
    simp at this
  | none =>
    cases hr2 : (scanBets u2 (scanBets u1 reg).2).1 with
    | some x =>
      obtain ⟨hm, ha⟩ := scanBets_some_active u2 (scanBets u1 reg).2 x.1 x.2 (by rw [hr2])
      have hmreg : x.1 ∈ reg := (scanBets_sublist u1 reg).subset hm
      have := hfree x.1 hmreg
      rw [ha] at this
      simp at this
    | none => rfl

theorem beginBet_blocked (reg : List SysState) (u1 u2 p1 p2 : Nat)
    (hbusy : ∃ b ∈ reg, (activeWith u1 b || activeWith u2 b) = true) :
    (beginBet reg u1 u2 p1 p2).2 ≠ BeginResult.started
    ∧ List.Sublist (beginBet reg u1 u2 p1 p2).1 reg := by
  unfold beginBet
  by_cases hself : (u2 == u1) = true
  · rw [if_pos hself]
    exact ⟨by simp, List.Sublist.refl reg⟩
  · rw [if_neg hself]
    have hsub : List.Sublist (scanBets u2 (scanBets u1 reg).2).2 reg :=
      (scanBets_sublist u2 (scanBets u1 reg).2).trans (scanBets_sublist u1 reg)
    cases hr1 : (scanBets u1 reg).1 with
    | some x =>
      refine ⟨?_, ?_⟩
      · show BeginResult.callerBusy ≠ BeginResult.started
        simp
      · show List.Sublist (scanBets u2 (scanBets u1 reg).2).2 reg
        exact hsub
    | none =>
      obtain ⟨b, hm, hact⟩ := hbusy
      have hact2 : activeWith u2 b = true := by
        rcases (by simpa using hact :
            activeWith u1 b = true ∨ activeWith u2 b = true) with h | h
        · exact absurd h (by simp [scanBets_none_no_active u1 reg hr1 b hm])
        · exact h
      have hb : terminalGB b = false := by
        have h' := hact2
        simp only [activeWith, Bool.and_eq_true, Bool.not_eq_true'] at h'
        exact h'.1
      have hm2 : b ∈ (scanBets u1 reg).2 := mem_scanBets_of_not_terminal u1 reg b hm hb
      have hsome := scanBets_some_of_active u2 (scanBets u1 reg).2 b hm2 hact2
      cases hr2 : (scanBets u2 (scanBets u1 reg).2).1 with
      | none => rw [hr2] at hsome; cases hsome
      | some x =>
        refine ⟨?_, ?_⟩
        · show BeginResult.otherBusy ≠ BeginResult.started
          simp
        · show List.Sublist (scanBets u2 (scanBets u1 reg).2).2 reg
          exact hsub

theorem activeWith_initState (u u1 u2 p1 p2 : Nat) :
    activeWith u (initState u1 u2 p1 p2)
      = (decide (u = u1) || decide (u = u2)) := by
  by_cases h1 : u = u1
  · subst h1
    simp [activeWith, terminalGB, getBettor, initState]
  · by_cases h2 : u = u2
    · subst h2
      simp [activeWith, terminalGB, getBettor, initState, h1]
    · simp [activeWith, terminalGB, getBettor, initState, h1, h2]

theorem regStep_countActive (reg : List SysState) (e : RegEvent) (uid : Nat)
    (h : countActive uid reg ≤ 1) : countActive uid (regStep reg e) ≤ 1 := by
  cases e with
  | lookupEv u =>
    simp only [regStep]
    exact le_trans (countActive_sublist uid _ reg (scanBets_sublist u reg)) h
  | sessionEv i e =>
    simp only [regStep]
    cases hget : reg.get? i with
    | none => exact h
    | some s =>
      exact le_trans
        (countP_set_le reg i s (handleEvent s e).1 hget _
          (activeWith_handleEvent s e uid)) h
  | beginEv u1 u2 p1 p2 =>
    simp only [regStep]
    have hsub1 : countActive uid (scanBets u1 reg).2 ≤ countActive uid reg :=
      countActive_sublist uid _ reg (scanBets_sublist u1 reg)
    have hsub2 : countActive uid (scanBets u2 (scanBets u1 reg).2).2
        ≤ countActive uid (scanBets u1 reg).2 :=
      countActive_sublist uid _ _ (scanBets_sublist u2 (scanBets u1 reg).2)
    unfold beginBet
    by_cases hself : (u2 == u1) = true
    · rw [if_pos hself]; exact h
    · rw [if_neg hself]
      cases hr1 : (scanBets u1 reg).1 with
      | some x =>
        show countActive uid (scanBets u2 (scanBets u1 reg).2).2 ≤ 1
        omega
      | none =>
        cases hr2 : (scanBets u2 (scanBets u1 reg).2).1 with
        | some x =>
          show countActive uid (scanBets u2 (scanBets u1 reg).2).2 ≤ 1
          omega
        | none =>
          show countActive uid
            ((scanBets u2 (scanBets u1 reg).2).2 ++ [initState u1 u2 p1 p2]) ≤ 1
          have happ : countActive uid
              ((scanBets u2 (scanBets u1 reg).2).2 ++ [initState u1 u2 p1 p2])
              = countActive uid (scanBets u2 (scanBets u1 reg).2).2
                + countActive uid [initState u1 u2 p1 p2] := by
            simp [countActive, List.countP_append]
          rw [happ]
          have hone := countActive_singleton_le uid (initState u1 u2 p1 p2)
          by_cases h1 : uid = u1
          · have hz : countActive uid reg = 0 := by
              rw [h1]; exact countActive_scan_zero u1 reg hr1
            omega
          · by_cases h2 : uid = u2
            · have hz : countActive uid (scanBets u1 reg).2 = 0 := by
                rw [h2]; exact countActive_scan_zero u2 _ hr2
              omega
            · have hzi : countActive uid [initState u1 u2 p1 p2] = 0 :=
                countActive_singleton_zero uid _
                  (by simp [activeWith_initState, h1, h2])
              omega

theorem runReg_countActive (tr : List RegEvent) (reg : List SysState) (uid : Nat)
    (h : countActive uid reg ≤ 1) : countActive uid (runReg reg tr) ≤ 1 := by
  induction tr generalizing reg with
  | nil => exact h
  | cons e rest ih => exact ih (regStep reg e) (regStep_countActive reg e uid h)

/-! ## Claim theorems (registry level) -/

/-- Claim C7: the `get_bet` scan returns the first session of the
channel list that is non-terminal (view not finished, neither proposal
cancelled) and contains the given party — or none — and, whether or not
a match is found, the updated channel list is the scanned prefix with
every terminal session removed, followed by the unscanned tail starting
at the match: lazy cleanup removes exactly the terminal sessions it
scanned. -/
theorem get_bet_scan_characterization (uid : Nat) (l : List SysState) :
    (scanBets uid l).1
      = (l.find? (fun b => activeWith uid b)).bind
          (fun b => (getBettor b uid).map (fun p => (b, p)))
    ∧ (scanBets uid l).2
      = (l.takeWhile (fun b => !activeWith uid b)).filter (fun b => !terminalGB b)
        ++ l.dropWhile (fun b => !activeWith uid b) := by
  induction l with
  | nil => simp [scanBets]
  | cons b rest ih =>
    cases ht : terminalGB b with
    | true =>
      have ha : activeWith uid b = false := by simp [activeWith, ht]
      constructor
      · rw [List.find?_cons_of_neg _ (by simp [ha])]
        simpa [scanBets, ht] using ih.1
      · rw [List.takeWhile_cons_of_pos (by simp [ha]),
          List.dropWhile_cons_of_pos (by simp [ha])]
        simp only [List.filter_cons, ht]
        simpa [scanBets, ht] using ih.2
    | false =>
      cases hg : getBettor b uid with
      | some p =>
        have ha : activeWith uid b = true := by simp [activeWith, ht, hg]
        constructor
        · rw [List.find?_cons_of_pos _ (by simp [ha])]
          simp [scanBets, ht, hg]
        · rw [List.takeWhile_cons_of_neg (by simp [ha]),
            List.dropWhile_cons_of_neg (by simp [ha])]
          simp [scanBets, ht, hg]
      | none =>
        have ha : activeWith uid b = false := by simp [activeWith, hg]
        constructor
        · rw [List.find?_cons_of_neg _ (by simp [ha])]
          simpa [scanBets, ht, hg] using ih.1
        · rw [List.takeWhile_cons_of_pos (by simp [ha]),
            List.dropWhile_cons_of_pos (by simp [ha])]
          simp only [List.filter_cons, ht, Bool.not_false, if_pos rfl]
          simpa [scanBets, ht, hg] using ih.2

/-- Claim C5: `begin` fails (and appends no session — the resulting
channel list is a sublist of the old one, shrunk only by lazy cleanup)
whenever the registry holds a non-terminal session containing either
party; in every registry reachable from empty by begins, lookups and
session events, each user is in at most one non-terminal session of the
channel; and of two begin calls for overlapping pairs — the
check-then-insert being a single atomic segment with no await inside,
this is the serialization of two concurrent begins — the one finding a
free registry succeeds and the second always fails: exactly one
success. -/
theorem begin_mutual_exclusion
    (reg : List SysState) (u1 u2 p1 p2 : Nat) (uid : Nat) (tr : List RegEvent)
    (v1 v2 q1 q2 : Nat)
    (hbusy : ∃ b ∈ reg, (activeWith u1 b || activeWith u2 b) = true)
    (hshare : v1 = u1 ∨ v1 = u2 ∨ v2 = u1 ∨ v2 = u2) :
    ((beginBet reg u1 u2 p1 p2).2 ≠ BeginResult.started
     ∧ List.Sublist (beginBet reg u1 u2 p1 p2).1 reg)
    ∧ countActive uid (runReg [] tr) ≤ 1
    ∧ (∀ reg3 : List SysState, u2 ≠ u1 →
        (∀ b ∈ reg3, (activeWith u1 b || activeWith u2 b) = false) →
        (beginBet reg3 u1 u2 p1 p2).2 = BeginResult.started)
    ∧ (∀ reg2 : List SysState,
        (beginBet reg2 u1 u2 p1 p2).2 = BeginResult.started →
        (beginBet (beginBet reg2 u1 u2 p1 p2).1 v1 v2 q1 q2).2
          ≠ BeginResult.started) := by
  refine ⟨beginBet_blocked reg u1 u2 p1 p2 hbusy, ?_,
    fun reg3 hne hfree => beginBet_free_starts reg3 u1 u2 p1 p2 hne hfree, ?_⟩
  · exact runReg_countActive tr [] uid (by simp [countActive])
  · intro reg2 hstart
    have hreg : (beginBet reg2 u1 u2 p1 p2).1
        = (scanBets u2 (scanBets u1 reg2).2).2 ++ [initState u1 u2 p1 p2] := by
      unfold beginBet at hstart ⊢
      by_cases hself : (u2 == u1) = true
      · rw [if_pos hself] at hstart
        simp at hstart
      · rw [if_neg hself] at hstart ⊢
        cases hr1 : (scanBets u1 reg2).1 with
        | some x => rw [hr1] at hstart; simp at hstart
        | none =>
          cases hr2 : (scanBets u2 (scanBets u1 reg2).2).1 with
          | some x => rw [hr1, hr2] at hstart; simp at hstart
          | none => rfl
    have hmem : initState u1 u2 p1 p2 ∈ (beginBet reg2 u1 u2 p1 p2).1 := by
      rw [hreg]; simp
    have hact : (activeWith v1 (initState u1 u2 p1 p2)
        || activeWith v2 (initState u1 u2 p1 p2)) = true := by
      rw [activeWith_initState, activeWith_initState]
      rcases hshare with h | h | h | h <;> subst h <;> simp
    exact (beginBet_blocked (beginBet reg2 u1 u2 p1 p2).1 v1 v2 q1 q2
      ⟨initState u1 u2 p1 p2, hmem, hact⟩).1

theorem begin_mutual_exclusion_witness :
    ((beginBet [initState 1 2 10 20] 1 3 10 30).2 ≠ BeginResult.started
     ∧ List.Sublist (beginBet [initState 1 2 10 20] 1 3 10 30).1 [initState 1 2 10 20])
    ∧ countActive 1
        (runReg [] [RegEvent.beginEv 1 2 10 20, RegEvent.beginEv 1 3 10 30]) ≤ 1
    ∧ (beginBet [] 1 3 10 30).2 = BeginResult.started
    ∧ (∀ reg2 : List SysState,
        (beginBet reg2 1 3 10 30).2 = BeginResult.started →
        (beginBet (beginBet reg2 1 3 10 30).1 4 3 40 30).2
          ≠ BeginResult.started) := by
  have h := begin_mutual_exclusion [initState 1 2 10 20] 1 3 10 30 1
    [RegEvent.beginEv 1 2 10 20, RegEvent.beginEv 1 3 10 30] 4 3 40 30
    ⟨initState 1 2 10 20, by decide, by decide⟩ (by simp)
  exact ⟨h.1, h.2.1, h.2.2.1 [] (by decide) (by decide), h.2.2.2⟩

/-! ## Resolution lemmas -/

theorem transferLoop_ok (items : List Nat) (w : Nat) (owner : Nat → Nat)
    (saveOk : Nat → Bool) (h : ∀ it ∈ items, saveOk it = true) :
    (transferLoop items w owner saveOk).2 = true := by
  induction items generalizing owner with
  | nil => rfl
  | cons a rest ih =>
    show (if saveOk a = true
        then transferLoop rest w (fun b => if b = a then w else owner b) saveOk
        else (owner, false)).2 = true
    rw [if_pos (h a (List.mem_cons_self a rest))]
    exact ih _ (fun it hit => h it (List.mem_cons_of_mem a hit))

theorem transferLoop_not_mem (items : List Nat) (w : Nat) (owner : Nat → Nat)
    (saveOk : Nat → Bool) (x : Nat) (hx : x ∉ items) :
    (transferLoop items w owner saveOk).1 x = owner x := by
  induction items generalizing owner with
  | nil => rfl
  | cons a rest ih =>
    have hxa : x ≠ a := fun h => hx (h ▸ List.mem_cons_self a rest)
    have hxr : x ∉ rest := fun h => hx (List.mem_cons_of_mem a h)
    show (if saveOk a = true
        then transferLoop rest w (fun b => if b = a then w else owner b) saveOk
        else (owner, false)).1 x = owner x
    by_cases hs : saveOk a = true
    · rw [if_pos hs, ih _ hxr]
      simp [hxa]
    · rw [if_neg hs]

theorem transferLoop_mem (items : List Nat) (w : Nat) (owner : Nat → Nat)
    (saveOk : Nat → Bool) (h : ∀ it ∈ items, saveOk it = true)
    (x : Nat) (hx : x ∈ items) :
    (transferLoop items w owner saveOk).1 x = w := by
  induction items generalizing owner with
  | nil => cases hx
  | cons a rest ih =>
    show (if saveOk a = true
        then transferLoop rest w (fun b => if b = a then w else owner b) saveOk
        else (owner, false)).1 x = w
    rw [if_pos (h a (List.mem_cons_self a rest))]
    by_cases hxr : x ∈ rest
    · exact ih _ (fun it hit => h it (List.mem_cons_of_mem a hit)) hxr
    · have hxa : x = a := by
        rcases List.mem_cons.mp hx with hxx | hxx
        · exact hxx
        · exact absurd hxx hxr
      rw [transferLoop_not_mem rest w _ saveOk x hxr]
      simp [hxa]

theorem transferLoop_partial (pre post : List Nat) (bad : Nat) (w : Nat)
    (owner : Nat → Nat) (saveOk : Nat → Bool)
    (hpre : ∀ it ∈ pre, saveOk it = true) (hbad : saveOk bad = false) :
    (transferLoop (pre ++ bad :: post) w owner saveOk).2 = false
    ∧ ∀ x, (transferLoop (pre ++ bad :: post) w owner saveOk).1 x
        = if x ∈ pre then w else owner x := by
  induction pre generalizing owner with
  | nil =>
    show (if saveOk bad = true
        then transferLoop post w (fun b => if b = bad then w else owner b) saveOk
        else (owner, false)).2 = false
      ∧ ∀ x, (if saveOk bad = true
          then transferLoop post w (fun b => if b = bad then w else owner b) saveOk
          else (owner, false)).1 x = if x ∈ ([] : List Nat) then w else owner x
    rw [if_neg (by simp [hbad])]
    exact ⟨rfl, fun x => by simp⟩
  | cons a rest ih =>
    show (if saveOk a = true
        then transferLoop (rest ++ bad :: post) w
          (fun b => if b = a then w else owner b) saveOk
        else (owner, false)).2 = false
      ∧ ∀ x, (if saveOk a = true
          then transferLoop (rest ++ bad :: post) w
            (fun b => if b = a then w else owner b) saveOk
          else (owner, false)).1 x = if x ∈ a :: rest then w else owner x
    rw [if_pos (hpre a (List.mem_cons_self a rest))]
    obtain ⟨ih1, ih2⟩ := ih (fun b => if b = a then w else owner b)
      (fun it hit => hpre it (List.mem_cons_of_mem a hit))
    refine ⟨ih1, fun x => ?_⟩
    rw [ih2 x]
    by_cases hxr : x ∈ rest
    · simp [hxr, List.mem_cons]
    · by_cases hxa : x = a
      · simp [hxr, hxa]
      · simp [hxr, hxa]

/-! ## Claim theorems (resolution) -/

/-- Claim C3: the winner of a resolution is exactly the boolean drawn by
`random.choice([True, False])` — one of the two equally likely draws
selects bettor 1 and the other selects bettor 2, with no dependence on
either proposal or any other argument — and when every save succeeds
the transfer loop reports success, every item of the loser proposal is
owned by the winner player afterwards, and (the two proposals being
disjoint, as each party stakes only balls of their own account) every
item of the winner proposal keeps its owner. -/
theorem resolution_uniform_winner_and_transfer
    (coin : Bool) (b1 b2 : BettingUser) (owner : Nat → Nat) (saveOk : Nat → Bool)
    (hok : ∀ it ∈ (if coin then b2 else b1).proposal, saveOk it = true)
    (hdisj : ∀ it, it ∈ b1.proposal → it ∉ b2.proposal) :
    (betResolve coin b1 b2 owner saveOk).1 = coin
    ∧ (∀ (c : Bool) (a1 a2 : BettingUser) (o : Nat → Nat) (k : Nat → Bool),
        (betResolve c a1 a2 o k).1 = c)
    ∧ (List.filter (fun c => (betResolve c b1 b2 owner saveOk).1)
        [true, false]).length = 1
    ∧ (List.filter (fun c => !(betResolve c b1 b2 owner saveOk).1)
        [true, false]).length = 1
    ∧ (betResolve coin b1 b2 owner saveOk).2.2 = true
    ∧ (∀ it ∈ (if coin then b2 else b1).proposal,
        (betResolve coin b1 b2 owner saveOk).2.1 it
          = (if coin then b1 else b2).playerId)
    ∧ (∀ it ∈ (if coin then b1 else b2).proposal,
        (betResolve coin b1 b2 owner saveOk).2.1 it = owner it) := by
  refine ⟨rfl, fun c a1 a2 o k => rfl, by simp [betResolve], by simp [betResolve],
    ?_, ?_, ?_⟩
  · exact transferLoop_ok _ _ owner saveOk hok
  · intro it hit
    exact transferLoop_mem _ _ owner saveOk hok it hit
  · intro it hit
    have hnot : it ∉ (if coin then b2 else b1).proposal := by
      cases coin
      · simp only [Bool.false_eq_true, if_false] at hit ⊢
        exact fun hmem => hdisj it hmem hit
      · simp only [if_pos rfl] at hit ⊢
        exact hdisj it hit
    exact transferLoop_not_mem _ _ owner saveOk it hnot

theorem resolution_uniform_winner_and_transfer_witness :
    (betResolve true
        { userId := 1, playerId := 10, proposal := [1, 2], locked := true,
          accepted := true, cancelled := false }
        { userId := 2, playerId := 20, proposal := [3], locked := true,
          accepted := true, cancelled := false }
        (fun b => b) (fun _ => true)).1 = true
    ∧ (betResolve true
        { userId := 1, playerId := 10, proposal := [1, 2], locked := true,
          accepted := true, cancelled := false }
        { userId := 2, playerId := 20, proposal := [3], locked := true,
          accepted := true, cancelled := false }
        (fun b => b) (fun _ => true)).2.2 = true
    ∧ (betResolve true
        { userId := 1, playerId := 10, proposal := [1, 2], locked := true,
          accepted := true, cancelled := false }
        { userId := 2, playerId := 20, proposal := [3], locked := true,
          accepted := true, cancelled := false }
        (fun b => b) (fun _ => true)).2.1 3 = 10
    ∧ (betResolve true
        { userId := 1, playerId := 10, proposal := [1, 2], locked := true,
          accepted := true, cancelled := false }
        { userId := 2, playerId := 20, proposal := [3], locked := true,
          accepted := true, cancelled := false }
        (fun b => b) (fun _ => true)).2.1 1 = 1 := by
  have h := resolution_uniform_winner_and_transfer true
    { userId := 1, playerId := 10, proposal := [1, 2], locked := true,
      accepted := true, cancelled := false }
    { userId := 2, playerId := 20, proposal := [3], locked := true,
      accepted := true, cancelled := false }
    (fun b => b) (fun _ => true) (by decide) (by decide)
  exact ⟨h.1, h.2.2.2.2.1, h.2.2.2.2.2.1 3 (by decide), h.2.2.2.2.2.2 1 (by decide)⟩

/-- Claim C4: when a save fails partway through the transfer loop, the
loop aborts at the failing item: the resolution is reported failed,
every transfer applied before the failure is kept (no rollback), no
later item is touched; on the session, the failed resolution is
surfaced to the confirming party, the confirmation view is stopped
(terminal state), and no further accept interaction is delivered, so a
retry that could double-transfer is impossible. -/
theorem resolution_partial_failure_reported_terminal
    (w : Nat) (owner : Nat → Nat) (saveOk : Nat → Bool)
    (pre post : List Nat) (bad : Nat)
    (hpre : ∀ it ∈ pre, saveOk it = true) (hbad : saveOk bad = false)
    (s : SysState) (uid : Nat) (p : Bool) (coin : Bool)
    (hvf : s.viewFinished = false) (hvk : s.viewKind = ViewKind.confirmView)
    (hu : getBettor s uid = some p)
    (hna : (bettorOf s p).accepted = false)
    (hoa : (bettorOf s (!p)).accepted = true) :
    (transferLoop (pre ++ bad :: post) w owner saveOk).2 = false
    ∧ (∀ x ∈ pre, (transferLoop (pre ++ bad :: post) w owner saveOk).1 x = w)
    ∧ (∀ x, x ∉ pre → (transferLoop (pre ++ bad :: post) w owner saveOk).1 x
        = owner x)
    ∧ (handleEvent s (Event.acceptBtn uid coin false)).2 = Outcome.resolvedFailed
    ∧ (handleEvent s (Event.acceptBtn uid coin false)).1.viewFinished = true
    ∧ (∀ (uid2 : Nat) (c2 t2 : Bool),
        handleEvent (handleEvent s (Event.acceptBtn uid coin false)).1
            (Event.acceptBtn uid2 c2 t2)
          = ((handleEvent s (Event.acceptBtn uid coin false)).1,
             Outcome.notDelivered)) := by
  obtain ⟨hfail, hkeep⟩ := transferLoop_partial pre post bad w owner saveOk hpre hbad
  have hmach : (handleEvent s (Event.acceptBtn uid coin false)).2
        = Outcome.resolvedFailed
      ∧ (handleEvent s (Event.acceptBtn uid coin false)).1.viewFinished = true := by
    cases p
    · have hoa2 : s.bettor1.accepted = true := by simpa [bettorOf] using hoa
      have hna2 : s.bettor2.accepted = false := by simpa [bettorOf] using hna
      constructor <;>
        simp [handleEvent, hvf, hvk, hu, confirmMenu, setBettor, bettorOf,
          hoa2, hna2]
    · have hoa2 : s.bettor2.accepted = true := by simpa [bettorOf] using hoa
      have hna2 : s.bettor1.accepted = false := by simpa [bettorOf] using hna
      constructor <;>
        simp [handleEvent, hvf, hvk, hu, confirmMenu, setBettor, bettorOf,
          hoa2, hna2]
  refine ⟨hfail, ?_, ?_, hmach.1, hmach.2, ?_⟩
  · intro x hx
    rw [hkeep x]
    simp [hx]
  · intro x hx
    rw [hkeep x]
    simp [hx]
  · intro uid2 c2 t2
    generalize hg : (handleEvent s (Event.acceptBtn uid coin false)).1 = t at hmach ⊢
    simp [handleEvent, hmach.2]

theorem resolution_partial_failure_reported_terminal_witness :
    (transferLoop [5, 6] 10 (fun _ => 20) (fun b => b == 5)).2 = false
    ∧ (transferLoop [5, 6] 10 (fun _ => 20) (fun b => b == 5)).1 5 = 10
    ∧ (transferLoop [5, 6] 10 (fun _ => 20) (fun b => b == 5)).1 6 = 20
    ∧ (handleEvent exAcceptedState (Event.acceptBtn 1 true false)).2
        = Outcome.resolvedFailed
    ∧ (handleEvent exAcceptedState (Event.acceptBtn 1 true false)).1.viewFinished
        = true := by
  have h := resolution_partial_failure_reported_terminal 10 (fun _ => 20)
    (fun b => b == 5) [5] [] 6 (by decide) (by decide) exAcceptedState 1 true true
    (by decide) (by decide) (by decide) (by decide) (by decide)
  exact ⟨h.1, h.2.1 5 (by decide), h.2.2.1 6 (by decide), h.2.2.2.1, h.2.2.2.2.1⟩

end Betting

